import Mathlib

/-!
Verification of the GPS anomaly-correction program (`best_gps_algorithm.cpp`).

The program consists of a haversine great-circle distance function and a
single pass over a coordinate sequence that replaces interior points whose
implied speed to a neighbour exceeds 200.0 by the arithmetic midpoint of the
two original neighbours.  Doubles are modelled as real numbers, `long long`
timestamps as integers, and the `std::vector` of coordinates as a `List`.
-/

open Real

/-- A single GPS fix: `struct Coordinate { double lat; double lon; long long time; }`. -/
structure Coordinate where
  lat : ℝ
  lon : ℝ
  time : ℤ

/-- Index into a coordinate list, as `coordinates[i]` in the loop.  The default
value is never consulted at the indices the program reads (all in bounds). -/
def getC (l : List Coordinate) (i : ℕ) : Coordinate :=
  l.getD i ⟨0, 0, 0⟩

/-- Two-argument arctangent as in C's `atan2(y, x)` (used by the program with
both arguments non-negative, where only the `x > 0` and `x = 0` branches can fire). -/
noncomputable def atan2 (y x : ℝ) : ℝ :=
  if 0 < x then Real.arctan (y / x)
  else if x < 0 then
    (if 0 ≤ y then Real.arctan (y / x) + π else Real.arctan (y / x) - π)
  else
    (if 0 < y then π / 2 else if y < 0 then -(π / 2) else 0)

/-- `haversine_distance` from the source: spherical-Earth great-circle distance,
radius 6371000 m, angles converted from degrees to radians. -/
noncomputable def haversine_distance (lat1 lon1 lat2 lon2 : ℝ) : ℝ :=
  let R : ℝ := 6371000.0
  let phi1 := lat1 * π / 180.0
  let phi2 := lat2 * π / 180.0
  let delta_phi := (lat2 - lat1) * π / 180.0
  let delta_lambda := (lon2 - lon1) * π / 180.0
  let a := Real.sin (delta_phi / 2) * Real.sin (delta_phi / 2) +
    Real.cos phi1 * Real.cos phi2 *
    Real.sin (delta_lambda / 2) * Real.sin (delta_lambda / 2)
  let c := 2 * atan2 (Real.sqrt a) (Real.sqrt (1 - a))
  R * c

/-- The result record of `process_coordinates`: the corrected sequence and the
two counters. -/
structure PCState where
  corrected_points : List Coordinate
  anomalies_detected : ℕ
  anomalies_corrected : ℕ

open Classical in
/-- One iteration of the `for` loop of `process_coordinates` at index `i`,
acting on the accumulated output sequence and counters. -/
noncomputable def processStep (coordinates : List Coordinate) (i : ℕ) (s : PCState) :
    PCState :=
  if 0 < i ∧ i < coordinates.length - 1 then
    let distance_prev := haversine_distance (getC coordinates i).lat (getC coordinates i).lon
      (getC coordinates (i - 1)).lat (getC coordinates (i - 1)).lon
    let distance_next := haversine_distance (getC coordinates i).lat (getC coordinates i).lon
      (getC coordinates (i + 1)).lat (getC coordinates (i + 1)).lon
    let speed_prev := distance_prev /
      (((getC coordinates i).time - (getC coordinates (i - 1)).time : ℤ) : ℝ)
    let speed_next := distance_next /
      (((getC coordinates (i + 1)).time - (getC coordinates i).time : ℤ) : ℝ)
    if speed_prev > 200.0 ∨ speed_next > 200.0 then
      { corrected_points := s.corrected_points ++
          [⟨((getC coordinates (i - 1)).lat + (getC coordinates (i + 1)).lat) / 2,
            ((getC coordinates (i - 1)).lon + (getC coordinates (i + 1)).lon) / 2,
            (getC coordinates i).time⟩],
        anomalies_detected := s.anomalies_detected + 1,
        anomalies_corrected := s.anomalies_corrected + 1 }
    else
      { s with corrected_points := s.corrected_points ++ [getC coordinates i] }
  else
    { s with corrected_points := s.corrected_points ++ [getC coordinates i] }

/-- The loop of `process_coordinates` run for the first `k` indices. -/
noncomputable def processLoop (coordinates : List Coordinate) : ℕ → PCState
  | 0 => ⟨[], 0, 0⟩
  | k + 1 => processStep coordinates k (processLoop coordinates k)

/-- `process_coordinates`: run the loop over the whole input sequence. -/
noncomputable def process_coordinates (coordinates : List Coordinate) : PCState :=
  processLoop coordinates coordinates.length

/-- Implied speed from the previous point, as computed at an interior index
(line 52 of the source): distance to `coordinates[i-1]` over the timestamp delta. -/
noncomputable def speed_prev (c : List Coordinate) (i : ℕ) : ℝ :=
  haversine_distance (getC c i).lat (getC c i).lon (getC c (i - 1)).lat (getC c (i - 1)).lon /
    (((getC c i).time - (getC c (i - 1)).time : ℤ) : ℝ)

/-- Implied speed to the next point, as computed at an interior index
(line 53 of the source): distance to `coordinates[i+1]` over the timestamp delta. -/
noncomputable def speed_next (c : List Coordinate) (i : ℕ) : ℝ :=
  haversine_distance (getC c i).lat (getC c i).lon (getC c (i + 1)).lat (getC c (i + 1)).lon /
    (((getC c (i + 1)).time - (getC c i).time : ℤ) : ℝ)

/-- The classification test of line 55: anomalous when either implied speed
exceeds 200.0, reading only the original input sequence. -/
noncomputable def isAnomalousAt (c : List Coordinate) (i : ℕ) : Prop :=
  speed_prev c i > 200.0 ∨ speed_next c i > 200.0

/-- The interpolated replacement point built in lines 58-61: arithmetic midpoint
of the original neighbours, original timestamp. -/
noncomputable def interpolatedAt (c : List Coordinate) (i : ℕ) : Coordinate :=
  ⟨((getC c (i - 1)).lat + (getC c (i + 1)).lat) / 2,
    ((getC c (i - 1)).lon + (getC c (i + 1)).lon) / 2,
    (getC c i).time⟩

open Classical in
/-- Closed form of the element the loop appends at index `i`. -/
noncomputable def outputAt (c : List Coordinate) (i : ℕ) : Coordinate :=
  if 0 < i ∧ i < c.length - 1 then
    if isAnomalousAt c i then interpolatedAt c i else getC c i
  else getC c i

/-- Anomaly test as a function of just the three window points
(`prev = coordinates[i-1]`, `cur = coordinates[i]`, `next = coordinates[i+1]`). -/
noncomputable def windowAnomalous (prev cur next : Coordinate) : Prop :=
  haversine_distance cur.lat cur.lon prev.lat prev.lon / ((cur.time - prev.time : ℤ) : ℝ) > 200.0 ∨
  haversine_distance cur.lat cur.lon next.lat next.lon / ((next.time - cur.time : ℤ) : ℝ) > 200.0

open Classical in
/-- Output at an interior index as a function of just the three original window
points. -/
noncomputable def windowOutput (prev cur next : Coordinate) : Coordinate :=
  if windowAnomalous prev cur next then
    ⟨(prev.lat + next.lat) / 2, (prev.lon + next.lon) / 2, cur.time⟩
  else cur

/-- Modelled from the spec: the classification rule in its own words — the point
is anomalous if `speed_prev > 200.0` OR `speed_next > 200.0`, with
`speed_prev` the haversine distance from point `i` to point `i-1` divided by
`time[i] - time[i-1]`, and `speed_next` the haversine distance from point `i`
to point `i+1` divided by `time[i+1] - time[i]`, on the original input points. -/
noncomputable def spec_anomalous (c : List Coordinate) (i : ℕ) : Prop :=
  haversine_distance (getC c i).lat (getC c i).lon (getC c (i - 1)).lat (getC c (i - 1)).lon /
      (((getC c i).time : ℝ) - ((getC c (i - 1)).time : ℝ)) > 200.0 ∨
  haversine_distance (getC c i).lat (getC c i).lon (getC c (i + 1)).lat (getC c (i + 1)).lon /
      (((getC c (i + 1)).time : ℝ) - ((getC c i).time : ℝ)) > 200.0

open Classical in
lemma processStep_eq (c : List Coordinate) (i : ℕ) (s : PCState) :
    processStep c i s =
      ⟨s.corrected_points ++ [outputAt c i],
       s.anomalies_detected +
         (if 0 < i ∧ i < c.length - 1 ∧ isAnomalousAt c i then 1 else 0),
       s.anomalies_corrected +
         (if 0 < i ∧ i < c.length - 1 ∧ isAnomalousAt c i then 1 else 0)⟩ := by
  by_cases h1 : 0 < i ∧ i < c.length - 1
  · by_cases h2 : isAnomalousAt c i
    · have h2' := h2
      simp only [isAnomalousAt, speed_prev, speed_next, Int.cast_sub] at h2'
      have hc : 0 < i ∧ i < c.length - 1 ∧ isAnomalousAt c i := ⟨h1.1, h1.2, h2⟩
      simp [processStep, outputAt, interpolatedAt, isAnomalousAt, speed_prev,
        speed_next, h1, h2, h2', hc]
    · have h2' := h2
      simp only [isAnomalousAt, speed_prev, speed_next, Int.cast_sub, not_or,
        not_lt] at h2'
      have hc : ¬(0 < i ∧ i < c.length - 1 ∧ isAnomalousAt c i) := fun h => h2 h.2.2
      simp [processStep, outputAt, isAnomalousAt, speed_prev, speed_next, h1, h2,
        h2'.1.not_lt, h2'.2.not_lt, hc]
  · have hc : ¬(0 < i ∧ i < c.length - 1 ∧ isAnomalousAt c i) :=
      fun h => h1 ⟨h.1, h.2.1⟩
    simp [processStep, outputAt, h1, hc]

lemma processLoop_corrected_points (c : List Coordinate) (k : ℕ) :
    (processLoop c k).corrected_points = (List.range k).map (outputAt c) := by
  induction k with
  | zero => simp [processLoop]
  | succ n ih => simp [processLoop, processStep_eq, ih, List.range_succ]

lemma processLoop_detected_eq_corrected (c : List Coordinate) (k : ℕ) :
    (processLoop c k).anomalies_detected = (processLoop c k).anomalies_corrected := by
  induction k with
  | zero => rfl
  | succ n ih => simp [processLoop, processStep_eq, ih]

lemma getC_map_range (g : ℕ → Coordinate) {n i : ℕ} (h : i < n) :
    getC ((List.range n).map g) i = g i := by
  rw [getC, List.getD_eq_getElem _ _ (by simp [h])]
  simp [h]

lemma corrected_getC (c : List Coordinate) {i : ℕ} (h : i < c.length) :
    getC (process_coordinates c).corrected_points i = outputAt c i := by
  rw [process_coordinates, processLoop_corrected_points]
  exact getC_map_range _ h

lemma range_map_getC (c : List Coordinate) :
    (List.range c.length).map (getC c) = c := by
  apply List.ext_getElem
  · simp
  · intro i h1 h2
    simp [getC, List.getElem?_eq_getElem h2]

lemma processLoop_detected_of_short (c : List Coordinate) (h : c.length ≤ 2) (k : ℕ) :
    (processLoop c k).anomalies_detected = 0 := by
  induction k with
  | zero => rfl
  | succ n ih =>
    have hn : ¬(0 < n ∧ n < c.length - 1 ∧ isAnomalousAt c n) := by
      rintro ⟨hn1, hn2, -⟩; omega
    simp [processLoop, processStep_eq, ih, hn]

lemma outputAt_interior (c : List Coordinate) {i : ℕ} (h1 : 0 < i)
    (h2 : i < c.length - 1) :
    outputAt c i = windowOutput (getC c (i - 1)) (getC c i) (getC c (i + 1)) := by
  unfold outputAt
  rw [if_pos ⟨h1, h2⟩]
  rfl

lemma atan2_nonneg {y x : ℝ} (hy : 0 ≤ y) (hx : 0 ≤ x) : 0 ≤ atan2 y x := by
  unfold atan2
  rcases lt_or_eq_of_le hx with h | h
  · rw [if_pos h]
    have := Real.arctan_strictMono.monotone (div_nonneg hy h.le)
    rwa [Real.arctan_zero] at this
  · rw [if_neg (by rw [← h]; exact lt_irrefl 0), if_neg (by rw [← h]; exact lt_irrefl 0)]
    by_cases hy2 : 0 < y
    · rw [if_pos hy2]
      positivity
    · rw [if_neg hy2, if_neg (not_lt.mpr hy)]

lemma haversine_nonneg (lat1 lon1 lat2 lon2 : ℝ) :
    0 ≤ haversine_distance lat1 lon1 lat2 lon2 := by
  unfold haversine_distance
  refine mul_nonneg (by norm_num) (mul_nonneg (by norm_num) ?_)
  exact atan2_nonneg (Real.sqrt_nonneg _) (Real.sqrt_nonneg _)

lemma haversine_self (lat lon : ℝ) : haversine_distance lat lon lat lon = 0 := by
  unfold haversine_distance
  simp [atan2, sub_self]

lemma sqrt_one_sub_sin_mul_sin {t : ℝ} (h : 0 ≤ Real.cos t) :
    Real.sqrt (1 - Real.sin t * Real.sin t) = Real.cos t := by
  have h1 : Real.sin t ^ 2 + Real.cos t ^ 2 = 1 := Real.sin_sq_add_cos_sq t
  have h2 : 1 - Real.sin t * Real.sin t = Real.cos t * Real.cos t := by nlinarith
  rw [h2, Real.sqrt_mul_self h]

lemma atan2_sin_cos {t : ℝ} (h1 : 0 ≤ t) (h2 : t < π / 2) :
    atan2 (Real.sin t) (Real.cos t) = t := by
  have hc : 0 < Real.cos t := by
    apply Real.cos_pos_of_mem_Ioo
    constructor
    · nlinarith [Real.pi_pos]
    · exact h2
  unfold atan2
  rw [if_pos hc, ← Real.tan_eq_sin_div_cos, Real.arctan_tan (by nlinarith [Real.pi_pos]) h2]

lemma hav_one_zero : haversine_distance 1 0 0 0 = 6371000 * (2 * (π / 360)) := by
  unfold haversine_distance
  simp only []
  rw [show ((0:ℝ) - 1) * π / 180.0 / 2 = -(π / 360) by ring,
    show ((0:ℝ) - 0) * π / 180.0 / 2 = 0 by ring]
  have hr : 0 ≤ Real.sin (π / 360) :=
    Real.sin_nonneg_of_nonneg_of_le_pi (by positivity) (by nlinarith [Real.pi_pos])
  have hc : 0 ≤ Real.cos (π / 360) := by
    apply le_of_lt
    apply Real.cos_pos_of_mem_Ioo
    constructor <;> nlinarith [Real.pi_pos]
  rw [Real.sin_neg]
  simp only [Real.sin_zero, mul_zero, zero_mul, add_zero, neg_mul_neg]
  rw [Real.sqrt_mul_self hr, sqrt_one_sub_sin_mul_sin hc,
    atan2_sin_cos (by positivity) (by nlinarith [Real.pi_pos])]
  norm_num

lemma hav_zero_360 : haversine_distance 0 0 0 360 = 0 := by
  unfold haversine_distance
  simp only []
  rw [show ((0:ℝ) - 0) * π / 180.0 / 2 = 0 by ring,
    show ((360:ℝ) - 0) * π / 180.0 / 2 = π by ring,
    show (0:ℝ) * π / 180.0 = 0 by ring]
  simp [atan2, Real.sin_pi, Real.arctan_zero]

lemma anomalous_spike :
    isAnomalousAt [⟨0, 0, 0⟩, ⟨1, 0, 1⟩, ⟨0, 0, 2⟩] 1 := by
  have hs : speed_prev [⟨0, 0, 0⟩, ⟨1, 0, 1⟩, ⟨0, 0, 2⟩] 1 =
      haversine_distance 1 0 0 0 := by
    simp [speed_prev, getC]
  unfold isAnomalousAt
  left
  rw [hs, hav_one_zero]
  nlinarith [Real.pi_gt_three]

/-- Claim C1: at every interior index the point is classified anomalous (and
hence replaced by the interpolated midpoint) if and only if `speed_prev > 200.0`
or `speed_next > 200.0`, the speeds being haversine distance over timestamp
delta computed on the original input points, exactly as the spec words them. -/
theorem C1_classification_rule (c : List Coordinate) (i : ℕ) (h1 : 0 < i)
    (h2 : i < c.length - 1) :
    (isAnomalousAt c i ↔ spec_anomalous c i) ∧
      (isAnomalousAt c i →
        getC (process_coordinates c).corrected_points i = interpolatedAt c i) ∧
      (¬ isAnomalousAt c i →
        getC (process_coordinates c).corrected_points i = getC c i) := by
  refine ⟨?_, ?_, ?_⟩
  · simp [isAnomalousAt, spec_anomalous, speed_prev, speed_next]
  · intro h3
    rw [corrected_getC c (by omega)]
    simp [outputAt, h1, h2, h3]
  · intro h3
    rw [corrected_getC c (by omega)]
    simp [outputAt, h1, h2, h3]

/-- Witness for claim C1 at the concrete interior index 1 of a three-point
trajectory. -/
theorem C1_classification_rule_witness :
    (0 < 1 ∧ 1 < ([⟨0, 0, 0⟩, ⟨0, 0, 1⟩, ⟨0, 0, 2⟩] : List Coordinate).length - 1) ∧
      ((isAnomalousAt [⟨0, 0, 0⟩, ⟨0, 0, 1⟩, ⟨0, 0, 2⟩] 1 ↔
          spec_anomalous [⟨0, 0, 0⟩, ⟨0, 0, 1⟩, ⟨0, 0, 2⟩] 1) ∧
        (isAnomalousAt [⟨0, 0, 0⟩, ⟨0, 0, 1⟩, ⟨0, 0, 2⟩] 1 →
          getC (process_coordinates [⟨0, 0, 0⟩, ⟨0, 0, 1⟩, ⟨0, 0, 2⟩]).corrected_points 1 =
            interpolatedAt [⟨0, 0, 0⟩, ⟨0, 0, 1⟩, ⟨0, 0, 2⟩] 1) ∧
        (¬ isAnomalousAt [⟨0, 0, 0⟩, ⟨0, 0, 1⟩, ⟨0, 0, 2⟩] 1 →
          getC (process_coordinates [⟨0, 0, 0⟩, ⟨0, 0, 1⟩, ⟨0, 0, 2⟩]).corrected_points 1 =
            getC [⟨0, 0, 0⟩, ⟨0, 0, 1⟩, ⟨0, 0, 2⟩] 1)) :=
  ⟨⟨by norm_num, by simp⟩, C1_classification_rule _ 1 (by norm_num) (by simp)⟩

/-- Claim C2: every interior index flagged anomalous is replaced, in the output,
by the arithmetic midpoint of the two original neighbours' latitude and
longitude, with the original point's timestamp left unaltered. -/
theorem C2_interpolation (c : List Coordinate) (i : ℕ) (h1 : 0 < i)
    (h2 : i < c.length - 1) (h3 : isAnomalousAt c i) :
    (getC (process_coordinates c).corrected_points i).lat =
        ((getC c (i - 1)).lat + (getC c (i + 1)).lat) / 2 ∧
      (getC (process_coordinates c).corrected_points i).lon =
        ((getC c (i - 1)).lon + (getC c (i + 1)).lon) / 2 ∧
      (getC (process_coordinates c).corrected_points i).time = (getC c i).time := by
  rw [corrected_getC c (by omega)]
  simp [outputAt, interpolatedAt, h1, h2, h3]

/-- Witness for claim C2: a spike of one degree of latitude within one second is
anomalous and gets interpolated. -/
theorem C2_interpolation_witness :
    (0 < 1 ∧ 1 < ([⟨0, 0, 0⟩, ⟨1, 0, 1⟩, ⟨0, 0, 2⟩] : List Coordinate).length - 1 ∧
        isAnomalousAt [⟨0, 0, 0⟩, ⟨1, 0, 1⟩, ⟨0, 0, 2⟩] 1) ∧
      ((getC (process_coordinates [⟨0, 0, 0⟩, ⟨1, 0, 1⟩, ⟨0, 0, 2⟩]).corrected_points 1).lat =
          ((getC [⟨0, 0, 0⟩, ⟨1, 0, 1⟩, ⟨0, 0, 2⟩] (1 - 1)).lat +
            (getC [⟨0, 0, 0⟩, ⟨1, 0, 1⟩, ⟨0, 0, 2⟩] (1 + 1)).lat) / 2 ∧
        (getC (process_coordinates [⟨0, 0, 0⟩, ⟨1, 0, 1⟩, ⟨0, 0, 2⟩]).corrected_points 1).lon =
          ((getC [⟨0, 0, 0⟩, ⟨1, 0, 1⟩, ⟨0, 0, 2⟩] (1 - 1)).lon +
            (getC [⟨0, 0, 0⟩, ⟨1, 0, 1⟩, ⟨0, 0, 2⟩] (1 + 1)).lon) / 2 ∧
        (getC (process_coordinates [⟨0, 0, 0⟩, ⟨1, 0, 1⟩, ⟨0, 0, 2⟩]).corrected_points 1).time =
          (getC [⟨0, 0, 0⟩, ⟨1, 0, 1⟩, ⟨0, 0, 2⟩] 1).time) :=
  ⟨⟨by norm_num, by simp, anomalous_spike⟩,
    C2_interpolation _ 1 (by norm_num) (by simp) anomalous_spike⟩

/-- Claim C3: the output element at an interior index is a function of only the
three original input points at `i-1`, `i`, `i+1` — never of previously
corrected values, so consecutive anomalies are interpolated independently. -/
theorem C3_original_window (c : List Coordinate) (i : ℕ) (h1 : 0 < i)
    (h2 : i < c.length - 1) :
    getC (process_coordinates c).corrected_points i =
      windowOutput (getC c (i - 1)) (getC c i) (getC c (i + 1)) := by
  rw [corrected_getC c (by omega)]
  exact outputAt_interior c h1 h2

/-- Witness for claim C3 at the concrete interior index 1. -/
theorem C3_original_window_witness :
    (0 < 1 ∧ 1 < ([⟨2, 3, 0⟩, ⟨2, 3, 5⟩, ⟨2, 3, 9⟩] : List Coordinate).length - 1) ∧
      getC (process_coordinates [⟨2, 3, 0⟩, ⟨2, 3, 5⟩, ⟨2, 3, 9⟩]).corrected_points 1 =
        windowOutput (getC [⟨2, 3, 0⟩, ⟨2, 3, 5⟩, ⟨2, 3, 9⟩] (1 - 1))
          (getC [⟨2, 3, 0⟩, ⟨2, 3, 5⟩, ⟨2, 3, 9⟩] 1)
          (getC [⟨2, 3, 0⟩, ⟨2, 3, 5⟩, ⟨2, 3, 9⟩] (1 + 1)) :=
  ⟨⟨by norm_num, by simp⟩, C3_original_window _ 1 (by norm_num) (by simp)⟩

/-- Claim C4: the corrected output sequence always has exactly the length of the
input sequence. -/
theorem C4_length_preservation (c : List Coordinate) :
    (process_coordinates c).corrected_points.length = c.length := by
  rw [process_coordinates, processLoop_corrected_points]
  simp

/-- Claim C5: for non-empty input the first and last output elements are the
first and last input elements; endpoints are never classified or replaced. -/
theorem C5_endpoint_invariance (c : List Coordinate) (h : 0 < c.length) :
    getC (process_coordinates c).corrected_points 0 = getC c 0 ∧
      getC (process_coordinates c).corrected_points (c.length - 1) =
        getC c (c.length - 1) := by
  constructor
  · rw [corrected_getC c h]
    simp [outputAt]
  · rw [corrected_getC c (by omega)]
    have hni : ¬(0 < c.length - 1 ∧ c.length - 1 < c.length - 1) := by omega
    simp [outputAt, hni]

/-- Witness for claim C5 on a singleton trajectory. -/
theorem C5_endpoint_invariance_witness :
    0 < ([⟨7, 8, 9⟩] : List Coordinate).length ∧
      (getC (process_coordinates [⟨7, 8, 9⟩]).corrected_points 0 =
          getC [⟨7, 8, 9⟩] 0 ∧
        getC (process_coordinates [⟨7, 8, 9⟩]).corrected_points
            (([⟨7, 8, 9⟩] : List Coordinate).length - 1) =
          getC [⟨7, 8, 9⟩] (([⟨7, 8, 9⟩] : List Coordinate).length - 1)) :=
  ⟨by simp, C5_endpoint_invariance _ (by simp)⟩

/-- Claim C6: inputs of length at most 2 pass through unchanged and both
counters are zero. -/
theorem C6_short_passthrough (c : List Coordinate) (h : c.length ≤ 2) :
    (process_coordinates c).corrected_points = c ∧
      (process_coordinates c).anomalies_detected = 0 ∧
      (process_coordinates c).anomalies_corrected = 0 := by
  have hd : (process_coordinates c).anomalies_detected = 0 :=
    processLoop_detected_of_short c h c.length
  refine ⟨?_, hd, ?_⟩
  · rw [process_coordinates, processLoop_corrected_points]
    have hmap : ∀ i ∈ List.range c.length, outputAt c i = getC c i := by
      intro i hi
      rw [List.mem_range] at hi
      have hni : ¬(0 < i ∧ i < c.length - 1) := by omega
      simp [outputAt, hni]
    rw [List.map_congr_left hmap, range_map_getC]
  · have := processLoop_detected_eq_corrected c c.length
    rw [show (process_coordinates c).anomalies_corrected =
      (processLoop c c.length).anomalies_corrected from rfl, ← this]
    exact hd

/-- Witness for claim C6 on a singleton trajectory. -/
theorem C6_short_passthrough_witness :
    ([⟨5, 6, 7⟩] : List Coordinate).length ≤ 2 ∧
      ((process_coordinates [⟨5, 6, 7⟩]).corrected_points = [⟨5, 6, 7⟩] ∧
        (process_coordinates [⟨5, 6, 7⟩]).anomalies_detected = 0 ∧
        (process_coordinates [⟨5, 6, 7⟩]).anomalies_corrected = 0) :=
  ⟨by simp, C6_short_passthrough _ (by simp)⟩

/-- Claim C7: the two returned counters are always equal — every detection is
immediately corrected. -/
theorem C7_detected_eq_corrected (c : List Coordinate) :
    (process_coordinates c).anomalies_detected =
      (process_coordinates c).anomalies_corrected :=
  processLoop_detected_eq_corrected c c.length

/-- Claim C8 (code evidence): at the failing input whose first two records share
timestamp 0, index 1 is interior and the elapsed time `dt_prev` is 0, so line 52
divides the distance by zero with no guard; the source applies no explicit
policy for duplicate timestamps. -/
theorem C8_unguarded_division :
    (0 < 1 ∧ 1 < ([⟨0, 0, 0⟩, ⟨1, 0, 0⟩, ⟨0, 0, 1⟩] : List Coordinate).length - 1) ∧
      ((getC [⟨0, 0, 0⟩, ⟨1, 0, 0⟩, ⟨0, 0, 1⟩] 1).time -
          (getC [⟨0, 0, 0⟩, ⟨1, 0, 0⟩, ⟨0, 0, 1⟩] (1 - 1)).time : ℤ) = 0 :=
  ⟨⟨by norm_num, by simp⟩, by simp [getC]⟩

/-- Claim C9 counterexample: the two points with latitude 0 and longitudes 0 and
360 do not have equal coordinates, yet their haversine distance is 0 — so
"distance is zero exactly when latitude and longitude are equal" fails. -/
theorem C9_counterexample :
    haversine_distance 0 0 0 360 = 0 ∧ ¬ ((0:ℝ) = 0 ∧ (0:ℝ) = 360) :=
  ⟨hav_zero_360, by norm_num⟩

/-- Claim C9 (amended): the distance is always non-negative, and equal latitude
with equal longitude forces distance zero (in particular the distance of a
point to itself is 0); zero distance does not conversely force equal
coordinates. -/
theorem C9_nonneg_and_zero_on_coincide (lat1 lon1 lat2 lon2 : ℝ) :
    0 ≤ haversine_distance lat1 lon1 lat2 lon2 ∧
      (lat1 = lat2 → lon1 = lon2 → haversine_distance lat1 lon1 lat2 lon2 = 0) :=
  ⟨haversine_nonneg _ _ _ _, fun h1 h2 => by rw [h1, h2]; exact haversine_self _ _⟩

/-- Witness for the amended claim C9 at the concrete point (3, 4). -/
theorem C9_nonneg_and_zero_on_coincide_witness :
    0 ≤ haversine_distance 3 4 3 4 ∧ haversine_distance 3 4 3 4 = 0 :=
  ⟨(C9_nonneg_and_zero_on_coincide 3 4 3 4).1,
    (C9_nonneg_and_zero_on_coincide 3 4 3 4).2 rfl rfl⟩

/-- Claim C10: every output element is either the untouched input element or —
only at an interior index — the midpoint record with the original timestamp; in
particular the timestamp is preserved at every index. -/
theorem C10_pointwise (c : List Coordinate) (i : ℕ) (h : i < c.length) :
    (getC (process_coordinates c).corrected_points i = getC c i ∨
        (0 < i ∧ i < c.length - 1 ∧
          getC (process_coordinates c).corrected_points i =
            ⟨((getC c (i - 1)).lat + (getC c (i + 1)).lat) / 2,
              ((getC c (i - 1)).lon + (getC c (i + 1)).lon) / 2,
              (getC c i).time⟩)) ∧
      (getC (process_coordinates c).corrected_points i).time = (getC c i).time := by
  rw [corrected_getC c h]
  by_cases h1 : 0 < i ∧ i < c.length - 1
  · by_cases h2 : isAnomalousAt c i
    · constructor
      · exact Or.inr ⟨h1.1, h1.2, by simp [outputAt, interpolatedAt, h1, h2]⟩
      · simp [outputAt, interpolatedAt, h1, h2]
    · constructor
      · exact Or.inl (by simp [outputAt, h1, h2])
      · simp [outputAt, h1, h2]
  · constructor
    · exact Or.inl (by simp [outputAt, h1])
    · simp [outputAt, h1]

/-- Witness for claim C10 at index 0 of a singleton trajectory. -/
theorem C10_pointwise_witness :
    0 < ([⟨1, 2, 3⟩] : List Coordinate).length ∧
      ((getC (process_coordinates [⟨1, 2, 3⟩]).corrected_points 0 =
            getC [⟨1, 2, 3⟩] 0 ∨
          (0 < 0 ∧ 0 < ([⟨1, 2, 3⟩] : List Coordinate).length - 1 ∧
            getC (process_coordinates [⟨1, 2, 3⟩]).corrected_points 0 =
              ⟨((getC [⟨1, 2, 3⟩] (0 - 1)).lat + (getC [⟨1, 2, 3⟩] (0 + 1)).lat) / 2,
                ((getC [⟨1, 2, 3⟩] (0 - 1)).lon + (getC [⟨1, 2, 3⟩] (0 + 1)).lon) / 2,
                (getC [⟨1, 2, 3⟩] 0).time⟩)) ∧
        (getC (process_coordinates [⟨1, 2, 3⟩]).corrected_points 0).time =
          (getC [⟨1, 2, 3⟩] 0).time) :=
  ⟨by simp, C10_pointwise _ 0 (by simp)⟩
